import Mathlib

/-!
# Verification of N_SpeechBubbles (RPG Maker MZ plugin)

Shallow embedding of `N_SpeechBubbles.js` (version 1.1.2).  The plugin keeps,
per target identity, a stack of speech-bubble windows (`Window_Bubble.activeBubbles`),
attaches and detaches bubbles from the scene (`addTo` / `remove`), runs a per-frame
visibility coordinator (the `Game_Player.prototype.updateAnimation` override), and
exposes a blocking wait predicate to the event interpreter
(`Game_Interpreter.prototype.updateWaitMode`).

State is modelled explicitly: each `Window_Bubble` instance becomes an index into a
list of `Bubble` records holding its target identity, its `parent` pointer (as a
Boolean: `!!this.parent`) and its `visible` flag; the static `Window_Bubble.activeBubbles`
object becomes an association list from `TargetId` to lists of bubble indices.
-/

/-- The stable per-target key computed by the `Window_Bubble.targetId` getter:
`e<eventId>` for a `Game_Event`, `f<memberIndex>` for a `Game_Follower`,
`p` for the `Game_Player`. -/
inductive TargetId where
  | ev (n : ℕ)
  | fo (n : ℕ)
  | pl
deriving DecidableEq

/-- The per-instance state of one `Window_Bubble`:
its target identity, `!!this.parent` (whether `addChild` has been called on a scene
and not undone), and the PIXI `visible` flag toggled by `show()` / `hide()`.
A freshly constructed window has no parent and `visible = true`. -/
structure Bubble where
  target : TargetId
  hasParent : Bool
  visible : Bool
deriving DecidableEq

/-- The global state the plugin manipulates:
* `bubbles`: every constructed `Window_Bubble`, identified by its list index;
* `activeBubbles`: the static `Window_Bubble.activeBubbles` object, an association from
  target identity to the stack of bubble indices (most recently attached last);
* `speechBubbles`: the module-level `speechBubbles` array of notetag bubbles
  iterated by the coordinator;
* `blockingBubble`: the module-level `blockingSpeechBubble` reference. -/
structure BubbleState where
  bubbles : List Bubble
  activeBubbles : List (TargetId × List ℕ)
  speechBubbles : List ℕ
  blockingBubble : Option ℕ
deriving DecidableEq

/-- Lookup in the `activeBubbles` object (first matching key). -/
def lookupA : List (TargetId × List ℕ) → TargetId → Option (List ℕ)
  | [], _ => none
  | (t1, l) :: rest, t => if t1 = t then some l else lookupA rest t

/-- Assignment `activeBubbles[t] = l` (replaces the first entry for `t`,
appends a new entry when absent). -/
def updateA : List (TargetId × List ℕ) → TargetId → List ℕ → List (TargetId × List ℕ)
  | [], t, l => [(t, l)]
  | (t1, l1) :: rest, t, l => if t1 = t then (t, l) :: rest else (t1, l1) :: updateA rest t l

/-- `Window_Bubble.activeBubbles[t]`; a missing key behaves as the empty stack
(the constructor creates `[]` on first use). -/
def stackOf (s : BubbleState) (t : TargetId) : List ℕ :=
  (lookupA s.activeBubbles t).getD []

/-- `!!bubble.parent` for bubble `i` (false for an index never constructed). -/
def parentF (s : BubbleState) (i : ℕ) : Bool :=
  ((s.bubbles[i]?).map Bubble.hasParent).getD false

/-- The `visible` flag of bubble `i` (false for an index never constructed). -/
def visibleF (s : BubbleState) (i : ℕ) : Bool :=
  ((s.bubbles[i]?).map Bubble.visible).getD false

/-- The target identity of bubble `i`. -/
def targetF (s : BubbleState) (i : ℕ) : Option TargetId :=
  (s.bubbles[i]?).map Bubble.target

/-- A bubble is actually drawn on screen iff it is composited into the scene
(`parent` set) and its `visible` flag is on. -/
def displayed (s : BubbleState) (i : ℕ) : Bool :=
  parentF s i && visibleF s i

/-- The bubble record at index `i`, with a dummy default out of range
(all mutators built on it are no-ops out of range). -/
def getBubble (s : BubbleState) (i : ℕ) : Bubble :=
  (s.bubbles[i]?).getD ⟨.pl, false, false⟩

/-- Replace the record of bubble `i` (no-op out of range, like `List.set`). -/
def setBubble (s : BubbleState) (i : ℕ) (b : Bubble) : BubbleState :=
  { s with bubbles := s.bubbles.set i b }

/-- Mutation of the parent pointer of bubble `i` (`parent.addChild(this)` /
`this.parent.removeChild(this)`). -/
def setParent (s : BubbleState) (i : ℕ) (v : Bool) : BubbleState :=
  setBubble s i { getBubble s i with hasParent := v }

/-- Mutation of the visibility flag of bubble `i` (`this.show()` / `this.hide()`). -/
def setVisible (s : BubbleState) (i : ℕ) (v : Bool) : BubbleState :=
  setBubble s i { getBubble s i with visible := v }

/-- Assignment to `Window_Bubble.activeBubbles[t]`. -/
def setStack (s : BubbleState) (t : TargetId) (l : List ℕ) : BubbleState :=
  { s with activeBubbles := updateA s.activeBubbles t l }

/-- `Window_Bubble.addTo(parent)`:
returns unchanged if the bubble already has a parent; otherwise adds the window to
the scene, removes itself from its target's stack (`Array.prototype.remove` deletes
every occurrence), hides the stack's current top if any, pushes itself, and shows
itself.  The `this.update()` position recomputation only moves the window on screen
and is not part of the visibility state. -/
def addTo (s : BubbleState) (i : ℕ) : BubbleState :=
  if parentF s i then s
  else
    match s.bubbles[i]? with
    | none => s
    | some b =>
      let s1 := setParent s i true
      let st := (stackOf s1 b.target).filter (fun j => j != i)
      let s2 := setStack s1 b.target st
      let s3 := match st.getLast? with
        | some j => setVisible s2 j false
        | none => s2
      let s4 := setStack s3 b.target (st ++ [i])
      setVisible s4 i true

/-- `Window_Bubble.remove()`:
returns unchanged if the bubble has no parent; otherwise removes the window from the
scene, removes itself from its target's stack, and shows the new stack top if any. -/
def remove (s : BubbleState) (i : ℕ) : BubbleState :=
  if parentF s i then
    match s.bubbles[i]? with
    | none => s
    | some b =>
      let s1 := setParent s i false
      let st := (stackOf s1 b.target).filter (fun j => j != i)
      let s2 := setStack s1 b.target st
      match st.getLast? with
      | some j => setVisible s2 j true
      | none => s2
  else s

/-- `Window_Bubble.isOtherBubbleActive()`: the stack top for this bubble's target
exists and is a different bubble. -/
def isOtherBubbleActive (s : BubbleState) (i : ℕ) : Bool :=
  match targetF s i with
  | none => false
  | some t =>
    match (stackOf s t).getLast? with
    | some j => j != i
    | none => false

/-- One iteration of the coordinator loop in the `Game_Player.prototype.updateAnimation`
override, for the notetag bubble `i`; `prox i` is the value of
`speechBubble.isPlayerWithinDistance()` at this frame (character positions do not
change during the loop). -/
def tickStep (prox : ℕ → Bool) (s : BubbleState) (i : ℕ) : BubbleState :=
  if prox i && !isOtherBubbleActive s i then addTo s i else remove s i

/-- The full coordinator tick of the `Game_Player.prototype.updateAnimation` override:
iterate over the `speechBubbles` array in order. -/
def updateAnimation (prox : ℕ → Bool) (s : BubbleState) : BubbleState :=
  s.speechBubbles.foldl (tickStep prox) s

/-- The `Scene_Map.prototype.terminate` override: `remove()` every notetag bubble,
then clear the `speechBubbles` array (`speechBubbles.length = 0`). -/
def terminate (s : BubbleState) : BubbleState :=
  let s1 := s.speechBubbles.foldl remove s
  { s1 with speechBubbles := [] }

/-- A JavaScript number as relevant to `Number(args.durationMs)`:
either NaN (non-numeric input string) or a rational value. -/
inductive JSNum where
  | nan
  | num (q : ℚ)
deriving DecidableEq

/-- The delay argument of the `setTimeout` call in `showBubble`:
`duration || speechBubble.textLength * 150`.  NaN and 0 are falsy, every other
number is truthy. -/
def scheduledDelay (duration : JSNum) (textLength : ℕ) : ℚ :=
  match duration with
  | .nan => ((textLength * 150 : ℕ) : ℚ)
  | .num q => if q = 0 then ((textLength * 150 : ℕ) : ℚ) else q

/-- `showBubble(text, target, duration, isBlocking)` for a target that resolved to a
live character with identity `target`:
constructs a new `Window_Bubble` (fresh index, no parent, `visible` initially true),
calls `addTo(scene)`, computes the one-shot expiry delay passed to `setTimeout`, and
if blocking stores the bubble in `blockingSpeechBubble` (the interpreter is then put
into the `"bubble"` wait mode).  `textLength` is the visible-character count
accumulated by `flushTextState` while drawing the text.  Returns the new state, the
new bubble's index, and the scheduled delay in milliseconds. -/
def showBubble (s : BubbleState) (target : TargetId) (textLength : ℕ)
    (duration : JSNum) (isBlocking : Bool) : BubbleState × ℕ × ℚ :=
  let i := s.bubbles.length
  let s1 := { s with bubbles := s.bubbles ++ [{ target := target, hasParent := false, visible := true }] }
  let s2 := addTo s1 i
  let delay := scheduledDelay duration textLength
  let s3 := if isBlocking then { s2 with blockingBubble := some i } else s2
  (s3, i, delay)

/-- The timed run of one bubble `i` whose `setTimeout(() => { speechBubble.remove(); }, d)`
is pending on state `s`: at model times before `d` milliseconds the callback has not
fired; from `d` on it has fired and the state is `remove s i`. -/
def stateAt (s : BubbleState) (i : ℕ) (d : ℚ) (t : ℚ) : BubbleState :=
  if t < d then s else remove s i

/-- The `WAITMODE_BUBBLE` constant. -/
def WAITMODE_BUBBLE : String := "bubble"

/-- A JavaScript exception observable through the plugin's public surface. -/
inductive JsError where
  | typeError
deriving DecidableEq

/-- The `Game_Interpreter.prototype.updateWaitMode` override:
in the `"bubble"` wait mode the result is `blockingSpeechBubble.isActive()`, i.e.
`!!parent` of the tracked bubble (a TypeError if `blockingSpeechBubble` is null);
in any other mode the base implementation `base` answers. -/
def updateWaitMode (waitMode : String) (s : BubbleState) (base : Bool) :
    Except JsError Bool :=
  if waitMode = WAITMODE_BUBBLE then
    match s.blockingBubble with
    | some i => .ok (parentF s i)
    | none => .error .typeError
  else .ok base

/-- `Window_Bubble.getRectForText`, for a text whose measured pixel dimensions
(`textSizeEx`) are the nonnegative integers `textWidth × textHeight`:
add `$gameSystem.windowPadding() * 2` to each dimension, then round any odd
dimension up by one (`width += width % 2; height += height % 2`). -/
def getRectForText (textWidth textHeight windowPadding : ℕ) : ℕ × ℕ :=
  let width := textWidth + windowPadding * 2
  let height := textHeight + windowPadding * 2
  (width + width % 2, height + height % 2)

/-- `Window_Bubble.isPlayerWithinDistance()`:
compares the squared distance between the player's continuous position
(`$gamePlayer._realX/_realY`) and the target character's position (`x/y`) against
the squared `Distance` parameter, inclusively. -/
def isPlayerWithinDistance (playerRealX playerRealY targetX targetY distance : ℚ) : Bool :=
  decide ((playerRealX - targetX) * (playerRealX - targetX)
    + (playerRealY - targetY) * (playerRealY - targetY) ≤ distance * distance)

/-- The game-world facts the target resolvers read:
which event ids exist on the map (`$gameMap._events[id]` is defined), how many
entries `$gamePlayer.followers()._data` has, the variable table
(`$gameVariables.value`, 0 for unset slots), and the id of the event running the
current interpreter (`0` when not launched by a map event). -/
structure GameEnv where
  eventIds : List ℕ
  followerCount : ℕ
  variableValue : ℤ → ℤ
  currentEventId : ℕ

/-- `getPlayer()`. -/
def getPlayer (_ : GameEnv) : Option TargetId := some .pl

/-- `getCurrentEvent()`: `$gameMap._events[currentInterpreter.eventId()]`,
undefined when no such event exists (e.g. event id 0). -/
def getCurrentEvent (env : GameEnv) : Option TargetId :=
  if env.currentEventId ∈ env.eventIds then some (.ev env.currentEventId) else none

/-- `getEventById(id)`: `$gameMap._events[id]` for a numeric id;
undefined for a negative or absent id. -/
def getEventById (env : GameEnv) (id : ℤ) : Option TargetId :=
  if 0 ≤ id ∧ id.toNat ∈ env.eventIds then some (.ev id.toNat) else none

/-- `getFollowerById(id)`: `$gamePlayer.followers().follower(id)`, i.e. `_data[id]`;
undefined for a negative or out-of-range index. -/
def getFollowerById (env : GameEnv) (id : ℤ) : Option TargetId :=
  if 0 ≤ id ∧ id.toNat < env.followerCount then some (.fo id.toNat) else none

/-- `getEventByVar(varId)`. -/
def getEventByVar (env : GameEnv) (varId : ℤ) : Option TargetId :=
  getEventById env (env.variableValue varId)

/-- `getFollowerByVar(varId)`. -/
def getFollowerByVar (env : GameEnv) (varId : ℤ) : Option TargetId :=
  getFollowerById env (env.variableValue varId)

/-- The decimal value of one digit character, or none for any other character. -/
def digitVal? (c : Char) : Option ℕ :=
  if c = '0' then some 0 else if c = '1' then some 1 else if c = '2' then some 2
  else if c = '3' then some 3 else if c = '4' then some 4 else if c = '5' then some 5
  else if c = '6' then some 6 else if c = '7' then some 7 else if c = '8' then some 8
  else if c = '9' then some 9 else none

/-- Reads a digit string as a number, none if any character is not a digit. -/
def digitsToNat? (cs : List Char) : Option ℕ :=
  cs.foldl (fun acc c =>
    match acc, digitVal? c with
    | some n, some d => some (n * 10 + d)
    | _, _ => none) (some 0)

/-- The canonical-array-index reading of a string key: JavaScript array indexing
`a[key]` with a string key only reaches an element when the key is the canonical
decimal representation of an index (no sign, no leading zero except `"0"` itself).
Any other string is an absent property. -/
def canonicalIndex? (s : String) : Option ℕ :=
  match s.data with
  | [] => none
  | c :: cs =>
    if c = '0' then (if cs = [] then some 0 else none)
    else digitsToNat? (c :: cs)

/-- `$gameMap._events[key]` for the raw string `key`
(the `getEventById(args.targetSelector)` fallback passes the selector string itself). -/
def getEventByKey (env : GameEnv) (key : String) : Option TargetId :=
  match canonicalIndex? key with
  | some n => if n ∈ env.eventIds then some (.ev n) else none
  | none => none

/-- The selector-to-handle object literal of the `show` command
(lines with `COMMAND_ARG_TARGET_*` keys), indexed at `args.targetSelector`:
an unrecognized selector yields undefined. -/
def targetLookup (env : GameEnv) (selector : String) (selectorId : ℤ) : Option TargetId :=
  if selector = "This event" then getCurrentEvent env
  else if selector = "Player" then getPlayer env
  else if selector = "Event" then getEventById env selectorId
  else if selector = "Event by variable" then getEventByVar env selectorId
  else if selector = "Follower" then getFollowerById env selectorId
  else if selector = "Follower by variable" then getFollowerByVar env selectorId
  else none

/-- The full target resolution of the `show` command:
`{...}[args.targetSelector] || getEventById(args.targetSelector)` — whenever the
object-literal lookup yields a falsy handle the raw selector string is reinterpreted
as an event key. -/
def resolveTarget (env : GameEnv) (selector : String) (selectorId : ℤ) : Option TargetId :=
  match targetLookup env selector selectorId with
  | some t => some t
  | none => getEventByKey env selector

/-- The `Window_Bubble.targetId` getter applied to the resolved handle:
`this.targetCharacter.constructor.name` dereferences the target character, so a
null/undefined handle throws a TypeError; a live handle yields its identity key. -/
def targetId (handle : Option TargetId) : Except JsError TargetId :=
  match handle with
  | none => .error .typeError
  | some t => .ok t

/-- The `show` command body after target resolution, exceptions included:
`new Window_Bubble(target, text)` evaluates the `targetId` getter inside the
constructor (to index `Window_Bubble.activeBubbles`), so a null handle makes the
construction throw before any bubble is registered; otherwise `showBubble` runs. -/
def showBubbleChecked (s : BubbleState) (handle : Option TargetId) (textLength : ℕ)
    (duration : JSNum) (isBlocking : Bool) : Except JsError (BubbleState × ℕ × ℚ) :=
  match targetId handle with
  | .error e => .error e
  | .ok t => .ok (showBubble s t textLength duration isBlocking)

/-- A sample state: two constructed, not yet attached bubbles sharing the target
identity `e1`, both registered as notetag bubbles. -/
def sampleState : BubbleState :=
  { bubbles := [⟨.ev 1, false, true⟩, ⟨.ev 1, false, true⟩]
  , activeBubbles := []
  , speechBubbles := [0, 1]
  , blockingBubble := none }

/-- A sample game environment: events 1 and 2 exist, two followers, all variables 0,
the interpreter was launched by event 1. -/
def sampleEnv : GameEnv :=
  { eventIds := [1, 2]
  , followerCount := 2
  , variableValue := fun _ => 0
  , currentEventId := 1 }

/-- The per-target bookkeeping invariant maintained by `addTo` / `remove`:
the stack for `t` has no duplicates, every stacked bubble has target `t` and a
parent, every stacked bubble below the top is hidden, and every bubble of target
`t` that has a parent is on the stack. -/
def InvT (s : BubbleState) (t : TargetId) : Prop :=
  (stackOf s t).Nodup
  ∧ (∀ i ∈ stackOf s t, targetF s i = some t ∧ parentF s i = true)
  ∧ (∀ i ∈ (stackOf s t).dropLast, visibleF s i = false)
  ∧ (∀ i < s.bubbles.length, targetF s i = some t → parentF s i = true → i ∈ stackOf s t)

/-- The global invariant: per-target bookkeeping holds for every target identity. -/
def BubbleInv (s : BubbleState) : Prop := ∀ t, InvT s t

instance (s : BubbleState) (t : TargetId) : Decidable (InvT s t) := by
  unfold InvT; infer_instance

/-- The finitely many target identities that can carry any state:
targets of constructed bubbles and keys of the `activeBubbles` object. -/
def relevantTargets (s : BubbleState) : List TargetId :=
  s.bubbles.map Bubble.target ++ s.activeBubbles.map Prod.fst

/-- Every bubble drawn on screen is the most recently attached bubble of its
target identity (the top of that target's stack). -/
def VisibleIsTop (s : BubbleState) : Prop :=
  ∀ i b, s.bubbles[i]? = some b → displayed s i = true →
    (stackOf s b.target).getLast? = some i

/-- At most one constructed bubble per target identity is drawn on screen. -/
def AtMostOneDisplayed (s : BubbleState) : Prop :=
  ∀ i j bi bj, s.bubbles[i]? = some bi → s.bubbles[j]? = some bj →
    bi.target = bj.target → displayed s i = true → displayed s j = true → i = j

/-! ## List helper lemmas -/

theorem mem_of_getLast?_eq {α} {l : List α} {a : α} (h : l.getLast? = some a) : a ∈ l := by
  have hd := List.dropLast_append_getLast? a (Option.mem_def.mpr h)
  rw [← hd]
  exact List.mem_append_right _ (List.mem_singleton.mpr rfl)

theorem eq_dropLast_append_of_getLast? {α} {l : List α} {a : α}
    (h : l.getLast? = some a) : l = l.dropLast ++ [a] :=
  (List.dropLast_append_getLast? a (Option.mem_def.mpr h)).symm

theorem getLast?_eq_of_mem_not_dropLast {α} {l : List α} {a : α}
    (hm : a ∈ l) (hnd : a ∉ l.dropLast) : l.getLast? = some a := by
  cases hl : l.getLast? with
  | none =>
    rw [List.getLast?_eq_none_iff] at hl
    subst hl; simp at hm
  | some g =>
    have := eq_dropLast_append_of_getLast? hl
    rw [this] at hm
    rcases List.mem_append.mp hm with h1 | h1
    · exact absurd h1 hnd
    · rw [List.mem_singleton.mp h1]

theorem mem_dropLast_of_mem_ne_last {α} {l : List α} {a g : α}
    (hm : a ∈ l) (hl : l.getLast? = some g) (hne : a ≠ g) : a ∈ l.dropLast := by
  have := eq_dropLast_append_of_getLast? hl
  rw [this] at hm
  rcases List.mem_append.mp hm with h1 | h1
  · exact h1
  · exact absurd (List.mem_singleton.mp h1) hne

theorem last_not_mem_dropLast_of_nodup {α} {l : List α} {g : α}
    (hnd : l.Nodup) (hl : l.getLast? = some g) : g ∉ l.dropLast := by
  intro hmem
  have heq := eq_dropLast_append_of_getLast? hl
  rw [heq] at hnd
  rcases List.nodup_append.mp hnd with ⟨_, _, hdisj⟩
  exact hdisj hmem (List.mem_singleton.mpr rfl)

theorem getLast?_filter_of_last {α} {l : List α} {g : α} (p : α → Bool)
    (hl : l.getLast? = some g) (hp : p g = true) :
    (l.filter p).getLast? = some g := by
  have heq := eq_dropLast_append_of_getLast? hl
  rw [heq, List.filter_append]
  simp [List.filter, hp]

theorem filter_ne_eq_self_of_not_mem {l : List ℕ} {i : ℕ} (h : i ∉ l) :
    l.filter (fun j => j != i) = l := by
  apply List.filter_eq_self.mpr
  intro a ha
  exact bne_iff_ne.mpr (fun hai => h (hai ▸ ha))

/-! ## Association list lemmas -/

theorem lookupA_updateA_self (m : List (TargetId × List ℕ)) (t : TargetId) (l : List ℕ) :
    lookupA (updateA m t l) t = some l := by
  induction m with
  | nil => simp [updateA, lookupA]
  | cons hd rest ih =>
    obtain ⟨t1, l1⟩ := hd
    by_cases h : t1 = t
    · simp [updateA, h, lookupA]
    · simp [updateA, h, lookupA, ih]

theorem lookupA_updateA_ne (m : List (TargetId × List ℕ)) (t t' : TargetId) (l : List ℕ)
    (h : t' ≠ t) : lookupA (updateA m t l) t' = lookupA m t' := by
  have hne : t ≠ t' := fun he => h he.symm
  induction m with
  | nil =>
    simp only [updateA, lookupA]
    rw [if_neg hne]
  | cons hd rest ih =>
    obtain ⟨t1, l1⟩ := hd
    by_cases h1 : t1 = t
    · subst h1
      simp only [updateA, if_pos rfl, lookupA]
      rw [if_neg hne, if_neg hne]
    · simp only [updateA, if_neg h1, lookupA, ih]

theorem lookupA_mem_keys {m : List (TargetId × List ℕ)} {t : TargetId} {l : List ℕ}
    (h : lookupA m t = some l) : t ∈ m.map Prod.fst := by
  induction m with
  | nil => simp [lookupA] at h
  | cons hd rest ih =>
    obtain ⟨t1, l1⟩ := hd
    by_cases h1 : t1 = t
    · subst h1; simp
    · rw [lookupA, if_neg h1] at h
      simpa using Or.inr (ih h)

/-! ## Accessor / mutator transport lemmas -/

theorem stackOf_setParent (s : BubbleState) (i : ℕ) (v : Bool) (t : TargetId) :
    stackOf (setParent s i v) t = stackOf s t := rfl

theorem stackOf_setVisible (s : BubbleState) (i : ℕ) (v : Bool) (t : TargetId) :
    stackOf (setVisible s i v) t = stackOf s t := rfl

theorem stackOf_setStack_self (s : BubbleState) (t : TargetId) (l : List ℕ) :
    stackOf (setStack s t l) t = l := by
  simp [stackOf, setStack, lookupA_updateA_self]

theorem stackOf_setStack_ne (s : BubbleState) (t t' : TargetId) (l : List ℕ)
    (h : t' ≠ t) : stackOf (setStack s t l) t' = stackOf s t' := by
  simp [stackOf, setStack, lookupA_updateA_ne _ _ _ _ h]

theorem bubbles_setStack (s : BubbleState) (t : TargetId) (l : List ℕ) :
    (setStack s t l).bubbles = s.bubbles := rfl

theorem targetF_setStack (s : BubbleState) (t : TargetId) (l : List ℕ) (j : ℕ) :
    targetF (setStack s t l) j = targetF s j := rfl

theorem parentF_setStack (s : BubbleState) (t : TargetId) (l : List ℕ) (j : ℕ) :
    parentF (setStack s t l) j = parentF s j := rfl

theorem visibleF_setStack (s : BubbleState) (t : TargetId) (l : List ℕ) (j : ℕ) :
    visibleF (setStack s t l) j = visibleF s j := rfl

theorem length_setStack (s : BubbleState) (t : TargetId) (l : List ℕ) :
    (setStack s t l).bubbles.length = s.bubbles.length := rfl

theorem getElem?_setBubble (s : BubbleState) (i : ℕ) (b : Bubble) (j : ℕ) :
    (setBubble s i b).bubbles[j]? =
      if i = j then (if i < s.bubbles.length then some b else none)
      else s.bubbles[j]? := by
  simp [setBubble, List.getElem?_set]

theorem length_setBubble (s : BubbleState) (i : ℕ) (b : Bubble) :
    (setBubble s i b).bubbles.length = s.bubbles.length := by
  simp [setBubble]

theorem length_setParent (s : BubbleState) (i : ℕ) (v : Bool) :
    (setParent s i v).bubbles.length = s.bubbles.length := length_setBubble ..

theorem length_setVisible (s : BubbleState) (i : ℕ) (v : Bool) :
    (setVisible s i v).bubbles.length = s.bubbles.length := length_setBubble ..

theorem getBubble_eq {s : BubbleState} {i : ℕ} {b : Bubble}
    (hb : s.bubbles[i]? = some b) : getBubble s i = b := by
  simp [getBubble, hb]

theorem targetF_setParent (s : BubbleState) (i : ℕ) (v : Bool) (j : ℕ) :
    targetF (setParent s i v) j = targetF s j := by
  unfold targetF setParent
  rw [getElem?_setBubble]
  by_cases hij : i = j
  · subst hij
    by_cases hlen : i < s.bubbles.length
    · have hb : s.bubbles[i]? = some s.bubbles[i] := List.getElem?_eq_getElem hlen
      simp [hlen, getBubble_eq hb, hb]
    · have hb : s.bubbles[i]? = none := List.getElem?_eq_none (Nat.le_of_not_lt hlen)
      simp [hlen, hb]
  · simp [hij]

theorem visibleF_setParent (s : BubbleState) (i : ℕ) (v : Bool) (j : ℕ) :
    visibleF (setParent s i v) j = visibleF s j := by
  unfold visibleF setParent
  rw [getElem?_setBubble]
  by_cases hij : i = j
  · subst hij
    by_cases hlen : i < s.bubbles.length
    · have hb : s.bubbles[i]? = some s.bubbles[i] := List.getElem?_eq_getElem hlen
      simp [hlen, getBubble_eq hb, hb]
    · have hb : s.bubbles[i]? = none := List.getElem?_eq_none (Nat.le_of_not_lt hlen)
      simp [hlen, hb]
  · simp [hij]

theorem parentF_setVisible (s : BubbleState) (i : ℕ) (v : Bool) (j : ℕ) :
    parentF (setVisible s i v) j = parentF s j := by
  unfold parentF setVisible
  rw [getElem?_setBubble]
  by_cases hij : i = j
  · subst hij
    by_cases hlen : i < s.bubbles.length
    · have hb : s.bubbles[i]? = some s.bubbles[i] := List.getElem?_eq_getElem hlen
      simp [hlen, getBubble_eq hb, hb]
    · have hb : s.bubbles[i]? = none := List.getElem?_eq_none (Nat.le_of_not_lt hlen)
      simp [hlen, hb]
  · simp [hij]

theorem targetF_setVisible (s : BubbleState) (i : ℕ) (v : Bool) (j : ℕ) :
    targetF (setVisible s i v) j = targetF s j := by
  unfold targetF setVisible
  rw [getElem?_setBubble]
  by_cases hij : i = j
  · subst hij
    by_cases hlen : i < s.bubbles.length
    · have hb : s.bubbles[i]? = some s.bubbles[i] := List.getElem?_eq_getElem hlen
      simp [hlen, getBubble_eq hb, hb]
    · have hb : s.bubbles[i]? = none := List.getElem?_eq_none (Nat.le_of_not_lt hlen)
      simp [hlen, hb]
  · simp [hij]

theorem parentF_setParent_self {s : BubbleState} {i : ℕ} (v : Bool)
    (hlen : i < s.bubbles.length) : parentF (setParent s i v) i = v := by
  unfold parentF setParent
  rw [getElem?_setBubble]
  simp [hlen]

theorem parentF_setParent_ne (s : BubbleState) (i : ℕ) (v : Bool) {j : ℕ}
    (h : i ≠ j) : parentF (setParent s i v) j = parentF s j := by
  unfold parentF setParent
  rw [getElem?_setBubble]
  simp [h]

theorem visibleF_setVisible_self {s : BubbleState} {i : ℕ} (v : Bool)
    (hlen : i < s.bubbles.length) : visibleF (setVisible s i v) i = v := by
  unfold visibleF setVisible
  rw [getElem?_setBubble]
  simp [hlen]

theorem visibleF_setVisible_ne (s : BubbleState) (i : ℕ) (v : Bool) {j : ℕ}
    (h : i ≠ j) : visibleF (setVisible s i v) j = visibleF s j := by
  unfold visibleF setVisible
  rw [getElem?_setBubble]
  simp [h]

theorem visibleF_setVisible_oob {s : BubbleState} {i : ℕ} (v : Bool)
    (hlen : ¬ i < s.bubbles.length) : visibleF (setVisible s i v) i = false := by
  unfold visibleF setVisible
  rw [getElem?_setBubble]
  have hb : s.bubbles[i]? = none := List.getElem?_eq_none (Nat.le_of_not_lt hlen)
  simp [hlen, hb]

theorem visibleF_oob {s : BubbleState} {i : ℕ}
    (hlen : ¬ i < s.bubbles.length) : visibleF s i = false := by
  have hb : s.bubbles[i]? = none := List.getElem?_eq_none (Nat.le_of_not_lt hlen)
  simp [visibleF, hb]

theorem parentF_eq_of {s : BubbleState} {i : ℕ} {b : Bubble}
    (hb : s.bubbles[i]? = some b) : parentF s i = b.hasParent := by
  simp [parentF, hb]

theorem visibleF_eq_of {s : BubbleState} {i : ℕ} {b : Bubble}
    (hb : s.bubbles[i]? = some b) : visibleF s i = b.visible := by
  simp [visibleF, hb]

theorem targetF_eq_of {s : BubbleState} {i : ℕ} {b : Bubble}
    (hb : s.bubbles[i]? = some b) : targetF s i = some b.target := by
  simp [targetF, hb]

theorem parentF_none {s : BubbleState} {i : ℕ}
    (hb : s.bubbles[i]? = none) : parentF s i = false := by
  simp [parentF, hb]

theorem lt_length_of_getElem? {s : BubbleState} {i : ℕ} {b : Bubble}
    (hb : s.bubbles[i]? = some b) : i < s.bubbles.length := by
  rcases List.getElem?_eq_some.mp hb with ⟨h1, _⟩
  exact h1

theorem blockingBubble_setBubble (s : BubbleState) (i : ℕ) (b : Bubble) :
    (setBubble s i b).blockingBubble = s.blockingBubble := rfl

theorem blockingBubble_setStack (s : BubbleState) (t : TargetId) (l : List ℕ) :
    (setStack s t l).blockingBubble = s.blockingBubble := rfl

theorem speechBubbles_setBubble (s : BubbleState) (i : ℕ) (b : Bubble) :
    (setBubble s i b).speechBubbles = s.speechBubbles := rfl

theorem speechBubbles_setStack (s : BubbleState) (t : TargetId) (l : List ℕ) :
    (setStack s t l).speechBubbles = s.speechBubbles := rfl

/-! ## Characterization of addTo / remove -/

theorem addTo_noop {s : BubbleState} {i : ℕ} (hp : parentF s i = true) :
    addTo s i = s := by
  unfold addTo
  rw [hp]
  rfl

theorem remove_noop {s : BubbleState} {i : ℕ} (hp : parentF s i = false) :
    remove s i = s := by
  unfold remove
  rw [hp]
  rfl

theorem addTo_eq {s : BubbleState} {i : ℕ} {b : Bubble}
    (hp : parentF s i = false) (hb : s.bubbles[i]? = some b) :
    addTo s i =
      (let st := (stackOf s b.target).filter (fun j => j != i)
       let s2 := setStack (setParent s i true) b.target st
       let s3 := match st.getLast? with
         | some j => setVisible s2 j false
         | none => s2
       setVisible (setStack s3 b.target (st ++ [i])) i true) := by
  unfold addTo
  rw [hp, hb]
  rfl

theorem remove_eq {s : BubbleState} {i : ℕ} {b : Bubble}
    (hp : parentF s i = true) (hb : s.bubbles[i]? = some b) :
    remove s i =
      (let st := (stackOf s b.target).filter (fun j => j != i)
       let s2 := setStack (setParent s i false) b.target st
       match st.getLast? with
       | some j => setVisible s2 j true
       | none => s2) := by
  unfold remove
  rw [hp, hb]
  rfl

theorem targetF_addTo (s : BubbleState) (i j : ℕ) :
    targetF (addTo s i) j = targetF s j := by
  unfold addTo
  split
  · rfl
  · split
    · rfl
    · rename_i b heq
      dsimp only
      cases hlast : ((stackOf (setParent s i true) b.target).filter (fun k => k != i)).getLast? with
      | none =>
        simp only [hlast, targetF_setVisible, targetF_setStack, targetF_setParent]
      | some j0 =>
        simp only [hlast, targetF_setVisible, targetF_setStack, targetF_setParent]

theorem targetF_remove (s : BubbleState) (i j : ℕ) :
    targetF (remove s i) j = targetF s j := by
  unfold remove
  split
  · split
    · rfl
    · rename_i b heq
      dsimp only
      cases hlast : ((stackOf (setParent s i false) b.target).filter (fun k => k != i)).getLast? with
      | none =>
        simp only [hlast, targetF_setVisible, targetF_setStack, targetF_setParent]
      | some j0 =>
        simp only [hlast, targetF_setVisible, targetF_setStack, targetF_setParent]
  · rfl

theorem length_addTo (s : BubbleState) (i : ℕ) :
    (addTo s i).bubbles.length = s.bubbles.length := by
  unfold addTo
  split
  · rfl
  · split
    · rfl
    · rename_i b heq
      dsimp only
      cases hlast : ((stackOf (setParent s i true) b.target).filter (fun k => k != i)).getLast? with
      | none =>
        simp only [hlast, length_setVisible, length_setStack, length_setParent]
      | some j0 =>
        simp only [hlast, length_setVisible, length_setStack, length_setParent]

theorem length_remove (s : BubbleState) (i : ℕ) :
    (remove s i).bubbles.length = s.bubbles.length := by
  unfold remove
  split
  · split
    · rfl
    · rename_i b heq
      dsimp only
      cases hlast : ((stackOf (setParent s i false) b.target).filter (fun k => k != i)).getLast? with
      | none =>
        simp only [hlast, length_setVisible, length_setStack, length_setParent]
      | some j0 =>
        simp only [hlast, length_setVisible, length_setStack, length_setParent]
  · rfl

theorem blockingBubble_addTo (s : BubbleState) (i : ℕ) :
    (addTo s i).blockingBubble = s.blockingBubble := by
  unfold addTo
  split
  · rfl
  · split
    · rfl
    · rename_i b heq
      dsimp only
      cases hlast : ((stackOf (setParent s i true) b.target).filter (fun k => k != i)).getLast? with
      | none =>
        simp only [hlast, blockingBubble_setBubble, blockingBubble_setStack, setVisible, setParent]
      | some j0 =>
        simp only [hlast, blockingBubble_setBubble, blockingBubble_setStack, setVisible, setParent]

theorem blockingBubble_remove (s : BubbleState) (i : ℕ) :
    (remove s i).blockingBubble = s.blockingBubble := by
  unfold remove
  split
  · split
    · rfl
    · rename_i b heq
      dsimp only
      cases hlast : ((stackOf (setParent s i false) b.target).filter (fun k => k != i)).getLast? with
      | none =>
        simp only [hlast, blockingBubble_setBubble, blockingBubble_setStack, setVisible, setParent]
      | some j0 =>
        simp only [hlast, blockingBubble_setBubble, blockingBubble_setStack, setVisible, setParent]
  · rfl

theorem speechBubbles_addTo (s : BubbleState) (i : ℕ) :
    (addTo s i).speechBubbles = s.speechBubbles := by
  unfold addTo
  split
  · rfl
  · split
    · rfl
    · rename_i b heq
      dsimp only
      cases hlast : ((stackOf (setParent s i true) b.target).filter (fun k => k != i)).getLast? with
      | none =>
        simp only [hlast, speechBubbles_setBubble, speechBubbles_setStack, setVisible, setParent]
      | some j0 =>
        simp only [hlast, speechBubbles_setBubble, speechBubbles_setStack, setVisible, setParent]

theorem speechBubbles_remove (s : BubbleState) (i : ℕ) :
    (remove s i).speechBubbles = s.speechBubbles := by
  unfold remove
  split
  · split
    · rfl
    · rename_i b heq
      dsimp only
      cases hlast : ((stackOf (setParent s i false) b.target).filter (fun k => k != i)).getLast? with
      | none =>
        simp only [hlast, speechBubbles_setBubble, speechBubbles_setStack, setVisible, setParent]
      | some j0 =>
        simp only [hlast, speechBubbles_setBubble, speechBubbles_setStack, setVisible, setParent]
  · rfl

theorem parentF_addTo_self {s : BubbleState} {i : ℕ} {b : Bubble}
    (hp : parentF s i = false) (hb : s.bubbles[i]? = some b) :
    parentF (addTo s i) i = true := by
  rw [addTo_eq hp hb]
  have hlen := lt_length_of_getElem? hb
  dsimp only
  cases hlast : ((stackOf s b.target).filter (fun k => k != i)).getLast? with
  | none =>
    simp only [hlast, parentF_setVisible, parentF_setStack]
    exact parentF_setParent_self true hlen
  | some j0 =>
    simp only [hlast, parentF_setVisible, parentF_setStack]
    exact parentF_setParent_self true hlen

theorem parentF_addTo_ne (s : BubbleState) (i : ℕ) {j : ℕ} (hj : j ≠ i) :
    parentF (addTo s i) j = parentF s j := by
  unfold addTo
  split
  · rfl
  · split
    · rfl
    · rename_i b heq
      dsimp only
      cases hlast : ((stackOf (setParent s i true) b.target).filter (fun k => k != i)).getLast? with
      | none =>
        simp only [hlast, parentF_setVisible, parentF_setStack]
        exact parentF_setParent_ne _ _ _ (Ne.symm hj)
      | some j0 =>
        simp only [hlast, parentF_setVisible, parentF_setStack]
        exact parentF_setParent_ne _ _ _ (Ne.symm hj)

theorem visibleF_addTo_self {s : BubbleState} {i : ℕ} {b : Bubble}
    (hp : parentF s i = false) (hb : s.bubbles[i]? = some b) :
    visibleF (addTo s i) i = true := by
  rw [addTo_eq hp hb]
  have hlen := lt_length_of_getElem? hb
  dsimp only
  cases hlast : ((stackOf s b.target).filter (fun k => k != i)).getLast? with
  | none =>
    simp only [hlast]
    exact visibleF_setVisible_self true
      (by simpa only [length_setStack, length_setParent] using hlen)
  | some j0 =>
    simp only [hlast]
    exact visibleF_setVisible_self true
      (by simpa only [length_setStack, length_setVisible, length_setParent] using hlen)

theorem visibleF_addTo_ne {s : BubbleState} {i : ℕ} {b : Bubble}
    (hp : parentF s i = false) (hb : s.bubbles[i]? = some b)
    (hni : i ∉ stackOf s b.target) {j : ℕ} (hj : j ≠ i) :
    visibleF (addTo s i) j =
      if (stackOf s b.target).getLast? = some j then false else visibleF s j := by
  rw [addTo_eq hp hb, filter_ne_eq_self_of_not_mem hni]
  dsimp only
  cases hlast : (stackOf s b.target).getLast? with
  | none =>
    simp only [hlast]
    rw [visibleF_setVisible_ne _ _ _ (Ne.symm hj)]
    simp only [visibleF_setStack, visibleF_setParent]
    rw [if_neg (by simp)]
  | some j0 =>
    simp only [hlast]
    rw [visibleF_setVisible_ne _ _ _ (Ne.symm hj)]
    simp only [visibleF_setStack]
    by_cases hjj : j = j0
    · subst hjj
      rw [if_pos rfl]
      by_cases hlen0 : j < (setStack (setParent s i true) b.target (stackOf s b.target)).bubbles.length
      · exact visibleF_setVisible_self false hlen0
      · exact visibleF_setVisible_oob false hlen0
    · rw [if_neg (fun hcon => hjj (Option.some.inj hcon).symm)]
      rw [visibleF_setVisible_ne _ _ _ (fun h0 => hjj h0.symm)]
      simp only [visibleF_setStack, visibleF_setParent]

theorem stackOf_addTo_self {s : BubbleState} {i : ℕ} {b : Bubble}
    (hp : parentF s i = false) (hb : s.bubbles[i]? = some b)
    (hni : i ∉ stackOf s b.target) :
    stackOf (addTo s i) b.target = stackOf s b.target ++ [i] := by
  rw [addTo_eq hp hb, filter_ne_eq_self_of_not_mem hni]
  dsimp only
  cases hlast : (stackOf s b.target).getLast? with
  | none => simp only [hlast, stackOf_setVisible, stackOf_setStack_self]
  | some j0 => simp only [hlast, stackOf_setVisible, stackOf_setStack_self]

theorem stackOf_addTo_ne {s : BubbleState} {i : ℕ} {b : Bubble}
    (hp : parentF s i = false) (hb : s.bubbles[i]? = some b)
    {t' : TargetId} (ht : t' ≠ b.target) :
    stackOf (addTo s i) t' = stackOf s t' := by
  rw [addTo_eq hp hb]
  dsimp only
  cases hlast : ((stackOf s b.target).filter (fun k => k != i)).getLast? with
  | none =>
    simp only [hlast, stackOf_setVisible, stackOf_setStack_ne _ _ _ _ ht, stackOf_setParent]
  | some j0 =>
    simp only [hlast, stackOf_setVisible, stackOf_setStack_ne _ _ _ _ ht, stackOf_setParent]

theorem parentF_remove_self (s : BubbleState) (i : ℕ) :
    parentF (remove s i) i = false := by
  cases hb : s.bubbles[i]? with
  | none =>
    rw [remove_noop (parentF_none hb)]
    exact parentF_none hb
  | some b =>
    cases hp : parentF s i with
    | false => rw [remove_noop hp]; exact hp
    | true =>
      rw [remove_eq hp hb]
      have hlen := lt_length_of_getElem? hb
      dsimp only
      cases hlast : ((stackOf s b.target).filter (fun k => k != i)).getLast? with
      | none =>
        simp only [hlast, parentF_setStack]
        exact parentF_setParent_self false hlen
      | some j0 =>
        simp only [hlast, parentF_setVisible, parentF_setStack]
        exact parentF_setParent_self false hlen

theorem parentF_remove_ne (s : BubbleState) (i : ℕ) {j : ℕ} (hj : j ≠ i) :
    parentF (remove s i) j = parentF s j := by
  unfold remove
  split
  · split
    · rfl
    · rename_i b heq
      dsimp only
      cases hlast : ((stackOf (setParent s i false) b.target).filter (fun k => k != i)).getLast? with
      | none =>
        simp only [hlast, parentF_setStack]
        exact parentF_setParent_ne _ _ _ (Ne.symm hj)
      | some j0 =>
        simp only [hlast, parentF_setVisible, parentF_setStack]
        exact parentF_setParent_ne _ _ _ (Ne.symm hj)
  · rfl

theorem visibleF_remove_self (s : BubbleState) (i : ℕ) :
    visibleF (remove s i) i = visibleF s i := by
  cases hb : s.bubbles[i]? with
  | none => rw [remove_noop (parentF_none hb)]
  | some b =>
    cases hp : parentF s i with
    | false => rw [remove_noop hp]
    | true =>
      rw [remove_eq hp hb]
      dsimp only
      cases hlast : ((stackOf s b.target).filter (fun k => k != i)).getLast? with
      | none => simp only [hlast, visibleF_setStack, visibleF_setParent]
      | some j0 =>
        have hj0 : j0 ≠ i := bne_iff_ne.mp (List.mem_filter.mp (mem_of_getLast?_eq hlast)).2
        simp only [hlast]
        rw [visibleF_setVisible_ne _ _ _ hj0]
        simp only [visibleF_setStack, visibleF_setParent]

theorem visibleF_remove_ne {s : BubbleState} {i : ℕ} {b : Bubble}
    (hp : parentF s i = true) (hb : s.bubbles[i]? = some b)
    (hwf : ∀ k ∈ stackOf s b.target, k < s.bubbles.length) (j : ℕ) :
    visibleF (remove s i) j =
      if ((stackOf s b.target).filter (fun k => k != i)).getLast? = some j then true
      else visibleF s j := by
  rw [remove_eq hp hb]
  dsimp only
  cases hlast : ((stackOf s b.target).filter (fun k => k != i)).getLast? with
  | none =>
    simp only [hlast, visibleF_setStack, visibleF_setParent]
    rw [if_neg (by simp)]
  | some j0 =>
    by_cases hjj : j = j0
    · subst hjj
      have hmem : j ∈ (stackOf s b.target).filter (fun k => k != i) :=
        mem_of_getLast?_eq hlast
      have hlenj : j < s.bubbles.length := hwf j (List.mem_filter.mp hmem).1
      rw [if_pos rfl]
      exact visibleF_setVisible_self true
        (by simpa only [length_setStack, length_setParent] using hlenj)
    · rw [if_neg (fun hcon => hjj (Option.some.inj hcon).symm)]
      rw [visibleF_setVisible_ne _ _ _ (fun h0 => hjj h0.symm)]
      simp only [visibleF_setStack, visibleF_setParent]

theorem stackOf_remove_self {s : BubbleState} {i : ℕ} {b : Bubble}
    (hp : parentF s i = true) (hb : s.bubbles[i]? = some b) :
    stackOf (remove s i) b.target = (stackOf s b.target).filter (fun k => k != i) := by
  rw [remove_eq hp hb]
  dsimp only
  cases hlast : ((stackOf s b.target).filter (fun k => k != i)).getLast? with
  | none => simp only [hlast, stackOf_setStack_self]
  | some j0 => simp only [hlast, stackOf_setVisible, stackOf_setStack_self]

theorem stackOf_remove_ne {s : BubbleState} {i : ℕ} {b : Bubble}
    (hp : parentF s i = true) (hb : s.bubbles[i]? = some b)
    {t' : TargetId} (ht : t' ≠ b.target) :
    stackOf (remove s i) t' = stackOf s t' := by
  rw [remove_eq hp hb]
  dsimp only
  cases hlast : ((stackOf s b.target).filter (fun k => k != i)).getLast? with
  | none =>
    simp only [hlast, stackOf_setStack_ne _ _ _ _ ht, stackOf_setParent]
  | some j0 =>
    simp only [hlast, stackOf_setVisible, stackOf_setStack_ne _ _ _ _ ht, stackOf_setParent]

/-! ## Invariant preservation -/

theorem addTo_none {s : BubbleState} {i : ℕ} (hb : s.bubbles[i]? = none) :
    addTo s i = s := by
  unfold addTo
  rw [parentF_none hb, hb]
  rfl

theorem remove_none {s : BubbleState} {i : ℕ} (hb : s.bubbles[i]? = none) :
    remove s i = s :=
  remove_noop (parentF_none hb)

theorem lt_length_of_targetF {s : BubbleState} {k : ℕ} {t : TargetId}
    (ht : targetF s k = some t) : k < s.bubbles.length := by
  cases hbk : s.bubbles[k]? with
  | none => rw [targetF, hbk] at ht; simp at ht
  | some bk => exact lt_length_of_getElem? hbk

theorem inv_addTo {s : BubbleState} (h : BubbleInv s) (i : ℕ) :
    BubbleInv (addTo s i) := by
  cases hb : s.bubbles[i]? with
  | none => rw [addTo_none hb]; exact h
  | some b =>
    cases hp : parentF s i with
    | true => rw [addTo_noop hp]; exact h
    | false =>
      have hni : ∀ t', i ∉ stackOf s t' := by
        intro t' hmem
        have hpt := ((h t').2.1 i hmem).2
        rw [hp] at hpt
        exact Bool.false_ne_true hpt
      intro t'
      by_cases ht' : t' = b.target
      · subst ht'
        refine ⟨?_, ?_, ?_, ?_⟩
        · rw [stackOf_addTo_self hp hb (hni _)]
          refine List.nodup_append.mpr ⟨(h b.target).1, List.nodup_singleton i, ?_⟩
          intro a ha hai
          rw [List.mem_singleton.mp hai] at ha
          exact hni _ ha
        · intro j hj
          rw [stackOf_addTo_self hp hb (hni _)] at hj
          rcases List.mem_append.mp hj with hjst | hji
          · have hjne : j ≠ i := fun he => hni _ (he ▸ hjst)
            refine ⟨?_, ?_⟩
            · rw [targetF_addTo]
              exact ((h b.target).2.1 j hjst).1
            · rw [parentF_addTo_ne _ _ hjne]
              exact ((h b.target).2.1 j hjst).2
          · rw [List.mem_singleton.mp hji]
            exact ⟨by rw [targetF_addTo]; exact targetF_eq_of hb,
              parentF_addTo_self hp hb⟩
        · intro j hj
          rw [stackOf_addTo_self hp hb (hni _), List.dropLast_concat] at hj
          have hjne : j ≠ i := fun he => hni _ (he ▸ hj)
          rw [visibleF_addTo_ne hp hb (hni _) hjne]
          cases hlast : (stackOf s b.target).getLast? with
          | none =>
            rw [List.getLast?_eq_none_iff] at hlast
            rw [hlast] at hj
            simp at hj
          | some g =>
            by_cases hjg : j = g
            · subst hjg
              rw [if_pos rfl]
            · rw [if_neg (fun hc => hjg (Option.some.inj hc).symm)]
              exact (h b.target).2.2.1 j (mem_dropLast_of_mem_ne_last hj hlast hjg)
        · intro j hjlen htj hpj
          rw [stackOf_addTo_self hp hb (hni _)]
          rw [length_addTo] at hjlen
          rw [targetF_addTo] at htj
          by_cases hji : j = i
          · subst hji
            exact List.mem_append_right _ (List.mem_singleton.mpr rfl)
          · rw [parentF_addTo_ne _ _ hji] at hpj
            exact List.mem_append_left _ ((h b.target).2.2.2 j hjlen htj hpj)
      · refine ⟨?_, ?_, ?_, ?_⟩
        · rw [stackOf_addTo_ne hp hb ht']
          exact (h t').1
        · intro j hj
          rw [stackOf_addTo_ne hp hb ht'] at hj
          have hjne : j ≠ i := fun he => hni _ (he ▸ hj)
          refine ⟨?_, ?_⟩
          · rw [targetF_addTo]
            exact ((h t').2.1 j hj).1
          · rw [parentF_addTo_ne _ _ hjne]
            exact ((h t').2.1 j hj).2
        · intro j hj
          rw [stackOf_addTo_ne hp hb ht'] at hj
          have hjmem : j ∈ stackOf s t' := List.mem_of_mem_dropLast hj
          have hjne : j ≠ i := fun he => hni _ (he ▸ hjmem)
          rw [visibleF_addTo_ne hp hb (hni _) hjne]
          cases hlast : (stackOf s b.target).getLast? with
          | none =>
            rw [if_neg (by simp)]
            exact (h t').2.2.1 j hj
          | some g =>
            by_cases hjg : j = g
            · subst hjg
              rw [if_pos rfl]
            · rw [if_neg (fun hc => hjg (Option.some.inj hc).symm)]
              exact (h t').2.2.1 j hj
        · intro j hjlen htj hpj
          rw [stackOf_addTo_ne hp hb ht']
          rw [length_addTo] at hjlen
          rw [targetF_addTo] at htj
          have hji : j ≠ i := by
            intro he
            subst he
            rw [targetF_eq_of hb] at htj
            exact ht' (Option.some.inj htj).symm
          rw [parentF_addTo_ne _ _ hji] at hpj
          exact (h t').2.2.2 j hjlen htj hpj

theorem inv_remove {s : BubbleState} (h : BubbleInv s) (i : ℕ) :
    BubbleInv (remove s i) := by
  cases hb : s.bubbles[i]? with
  | none => rw [remove_none hb]; exact h
  | some b =>
    cases hp : parentF s i with
    | false => rw [remove_noop hp]; exact h
    | true =>
      have hwf : ∀ k ∈ stackOf s b.target, k < s.bubbles.length := by
        intro k hk
        exact lt_length_of_targetF ((h b.target).2.1 k hk).1
      intro t'
      by_cases ht' : t' = b.target
      · subst ht'
        refine ⟨?_, ?_, ?_, ?_⟩
        · rw [stackOf_remove_self hp hb]
          exact (h b.target).1.filter _
        · intro j hj
          rw [stackOf_remove_self hp hb] at hj
          have hjmem : j ∈ stackOf s b.target := (List.mem_filter.mp hj).1
          have hjne : j ≠ i := bne_iff_ne.mp (List.mem_filter.mp hj).2
          refine ⟨?_, ?_⟩
          · rw [targetF_remove]
            exact ((h b.target).2.1 j hjmem).1
          · rw [parentF_remove_ne _ _ hjne]
            exact ((h b.target).2.1 j hjmem).2
        · intro j hj
          rw [stackOf_remove_self hp hb] at hj
          have hjmem : j ∈ (stackOf s b.target).filter (fun k => k != i) :=
            List.mem_of_mem_dropLast hj
          have hjst : j ∈ stackOf s b.target := (List.mem_filter.mp hjmem).1
          have hjne : j ≠ i := bne_iff_ne.mp (List.mem_filter.mp hjmem).2
          have hnd' : ((stackOf s b.target).filter (fun k => k != i)).Nodup :=
            (h b.target).1.filter _
          rw [visibleF_remove_ne hp hb hwf j]
          cases hlast' : ((stackOf s b.target).filter (fun k => k != i)).getLast? with
          | none =>
            rw [List.getLast?_eq_none_iff] at hlast'
            rw [hlast'] at hjmem
            simp at hjmem
          | some g' =>
            have hjg' : j ≠ g' := by
              intro he
              subst he
              exact last_not_mem_dropLast_of_nodup hnd' hlast' hj
            rw [if_neg (fun hc => hjg' (Option.some.inj hc).symm)]
            cases hlast : (stackOf s b.target).getLast? with
            | none =>
              rw [List.getLast?_eq_none_iff] at hlast
              rw [hlast] at hjst
              simp at hjst
            | some g =>
              by_cases hgi : g = i
              · have hjg : j ≠ g := fun he => hjne (he.trans hgi)
                exact (h b.target).2.2.1 j (mem_dropLast_of_mem_ne_last hjst hlast hjg)
              · have hgfil : ((stackOf s b.target).filter (fun k => k != i)).getLast? = some g :=
                  getLast?_filter_of_last _ hlast (bne_iff_ne.mpr hgi)
                have hgg' : g = g' := Option.some.inj (hgfil.symm.trans hlast')
                have hjg : j ≠ g := fun he => hjg' (he.trans hgg')
                exact (h b.target).2.2.1 j (mem_dropLast_of_mem_ne_last hjst hlast hjg)
        · intro j hjlen htj hpj
          rw [stackOf_remove_self hp hb]
          rw [length_remove] at hjlen
          rw [targetF_remove] at htj
          by_cases hji : j = i
          · subst hji
            rw [parentF_remove_self] at hpj
            exact absurd hpj (by simp)
          · rw [parentF_remove_ne _ _ hji] at hpj
            exact List.mem_filter.mpr
              ⟨(h b.target).2.2.2 j hjlen htj hpj, bne_iff_ne.mpr hji⟩
      · refine ⟨?_, ?_, ?_, ?_⟩
        · rw [stackOf_remove_ne hp hb ht']
          exact (h t').1
        · intro j hj
          rw [stackOf_remove_ne hp hb ht'] at hj
          have htj : targetF s j = some t' := ((h t').2.1 j hj).1
          have hjne : j ≠ i := by
            intro he
            subst he
            rw [targetF_eq_of hb] at htj
            exact ht' (Option.some.inj htj).symm
          refine ⟨?_, ?_⟩
          · rw [targetF_remove]; exact htj
          · rw [parentF_remove_ne _ _ hjne]
            exact ((h t').2.1 j hj).2
        · intro j hj
          rw [stackOf_remove_ne hp hb ht'] at hj
          have hjmem : j ∈ stackOf s t' := List.mem_of_mem_dropLast hj
          have htj : targetF s j = some t' := ((h t').2.1 j hjmem).1
          rw [visibleF_remove_ne hp hb hwf j]
          rw [if_neg ?hneg]
          case hneg =>
            intro hc
            have hjfil := mem_of_getLast?_eq hc
            have hjt : targetF s j = some b.target :=
              ((h b.target).2.1 j (List.mem_filter.mp hjfil).1).1
            rw [htj] at hjt
            exact ht' (Option.some.inj hjt)
          exact (h t').2.2.1 j hj
        · intro j hjlen htj hpj
          rw [stackOf_remove_ne hp hb ht']
          rw [length_remove] at hjlen
          rw [targetF_remove] at htj
          by_cases hji : j = i
          · subst hji
            rw [parentF_remove_self] at hpj
            exact absurd hpj (by simp)
          · rw [parentF_remove_ne _ _ hji] at hpj
            exact (h t').2.2.2 j hjlen htj hpj

theorem inv_tickStep {s : BubbleState} (h : BubbleInv s) (prox : ℕ → Bool) (i : ℕ) :
    BubbleInv (tickStep prox s i) := by
  unfold tickStep
  split
  · exact inv_addTo h i
  · exact inv_remove h i

theorem inv_foldl_tickStep (prox : ℕ → Bool) :
    ∀ (l : List ℕ) (s : BubbleState), BubbleInv s →
      BubbleInv (List.foldl (tickStep prox) s l) := by
  intro l
  induction l with
  | nil => intro s h; exact h
  | cons x xs ih =>
    intro s h
    exact ih _ (inv_tickStep h prox x)

theorem inv_updateAnimation {s : BubbleState} (h : BubbleInv s) (prox : ℕ → Bool) :
    BubbleInv (updateAnimation prox s) :=
  inv_foldl_tickStep prox s.speechBubbles s h

theorem visibleIsTop_of_inv {s : BubbleState} (h : BubbleInv s) : VisibleIsTop s := by
  intro i b hb hd
  have hd2 : parentF s i = true ∧ visibleF s i = true := by
    simpa [displayed] using hd
  rcases hd2 with ⟨hp, hv⟩
  have hmem : i ∈ stackOf s b.target :=
    (h b.target).2.2.2 i (lt_length_of_getElem? hb) (targetF_eq_of hb) hp
  have hnd : i ∉ (stackOf s b.target).dropLast := by
    intro hdrop
    have hfalse := (h b.target).2.2.1 i hdrop
    rw [hfalse] at hv
    exact Bool.false_ne_true hv
  exact getLast?_eq_of_mem_not_dropLast hmem hnd

theorem atMostOne_of_inv {s : BubbleState} (h : BubbleInv s) : AtMostOneDisplayed s := by
  intro i j bi bj hbi hbj htarget hdi hdj
  have h1 := visibleIsTop_of_inv h i bi hbi hdi
  have h2 := visibleIsTop_of_inv h j bj hbj hdj
  rw [htarget] at h1
  exact Option.some.inj (h1.symm.trans h2)

theorem not_mem_stack_of_no_parent {s : BubbleState} (h : BubbleInv s) {i : ℕ}
    (hp : parentF s i = false) : ∀ t', i ∉ stackOf s t' := by
  intro t' hmem
  have hpt := ((h t').2.1 i hmem).2
  rw [hp] at hpt
  exact Bool.false_ne_true hpt

theorem mem_bubbles_of_getElem? {s : BubbleState} {i : ℕ} {b : Bubble}
    (hb : s.bubbles[i]? = some b) : b ∈ s.bubbles := by
  rcases List.getElem?_eq_some.mp hb with ⟨h1, h2⟩
  rw [← h2]
  exact List.getElem_mem h1

theorem inv_of_relevant (s : BubbleState)
    (h : ∀ t ∈ relevantTargets s, InvT s t) : BubbleInv s := by
  intro t
  by_cases ht : t ∈ relevantTargets s
  · exact h t ht
  · have hstack : stackOf s t = [] := by
      cases hl : lookupA s.activeBubbles t with
      | none => simp [stackOf, hl]
      | some l =>
        exact absurd
          (show t ∈ relevantTargets s from
            List.mem_append_right _ (lookupA_mem_keys hl)) ht
    refine ⟨?_, ?_, ?_, ?_⟩
    · rw [hstack]; exact List.nodup_nil
    · intro j hj; rw [hstack] at hj; simp at hj
    · intro j hj; rw [hstack] at hj; simp at hj
    · intro j _ htj _
      exfalso
      apply ht
      apply List.mem_append_left
      cases hbj : s.bubbles[j]? with
      | none => rw [targetF, hbj] at htj; simp at htj
      | some bj =>
        rw [targetF_eq_of hbj] at htj
        have hbt : bj.target = t := Option.some.inj htj
        exact List.mem_map.mpr ⟨bj, mem_bubbles_of_getElem? hbj, hbt⟩

/-! ## showBubble support lemmas -/

theorem showBubble_idx (s : BubbleState) (target : TargetId) (tl : ℕ)
    (dur : JSNum) (bl : Bool) :
    (showBubble s target tl dur bl).2.1 = s.bubbles.length := rfl

theorem showBubble_delay (s : BubbleState) (target : TargetId) (tl : ℕ)
    (dur : JSNum) (bl : Bool) :
    (showBubble s target tl dur bl).2.2 = scheduledDelay dur tl := rfl

theorem parentF_withBlocking (s : BubbleState) (o : Option ℕ) (j : ℕ) :
    parentF { s with blockingBubble := o } j = parentF s j := rfl

theorem parentF_showBubble (s : BubbleState) (target : TargetId) (tl : ℕ)
    (dur : JSNum) (bl : Bool) :
    parentF (showBubble s target tl dur bl).1 s.bubbles.length = true := by
  have hb1 : ({ s with bubbles := s.bubbles ++ [⟨target, false, true⟩] }
      : BubbleState).bubbles[s.bubbles.length]? = some ⟨target, false, true⟩ :=
    List.getElem?_concat_length _ _
  have hp1 : parentF { s with bubbles := s.bubbles ++ [⟨target, false, true⟩] }
      s.bubbles.length = false := by
    rw [parentF_eq_of hb1]
  have hmain := parentF_addTo_self hp1 hb1
  unfold showBubble
  dsimp only
  cases bl
  · exact hmain
  · rw [if_pos rfl, parentF_withBlocking]
    exact hmain

theorem blockingBubble_showBubble_true (s : BubbleState) (target : TargetId)
    (tl : ℕ) (dur : JSNum) :
    (showBubble s target tl dur true).1.blockingBubble = some s.bubbles.length := rfl

theorem blockingBubble_stateAt (s : BubbleState) (i : ℕ) (d τ : ℚ) :
    (stateAt s i d τ).blockingBubble = s.blockingBubble := by
  unfold stateAt
  split
  · rfl
  · exact blockingBubble_remove s i

/-! ## Claims -/

/-- C7: For every text whose measured pixel dimensions are nonnegative integers, the
bubble geometry computed at construction by `getRectForText` (measured size plus two
times the window padding, with any odd dimension rounded up by one) has width and
height that are both even and both at least two times the padding. -/
theorem c7_geometry_even_and_padded (textWidth textHeight windowPadding : ℕ) :
    (getRectForText textWidth textHeight windowPadding).1 % 2 = 0
    ∧ (getRectForText textWidth textHeight windowPadding).2 % 2 = 0
    ∧ 2 * windowPadding ≤ (getRectForText textWidth textHeight windowPadding).1
    ∧ 2 * windowPadding ≤ (getRectForText textWidth textHeight windowPadding).2 := by
  unfold getRectForText
  refine ⟨?_, ?_, ?_, ?_⟩ <;> dsimp only <;> omega

/-- C6: The proximity gate of `isPlayerWithinDistance` compares the squared distance
between the player's continuous position and the target's position against the
squared Distance parameter with an inclusive bound: a squared distance exactly equal
to the squared threshold yields visible, a strictly greater one yields not visible. -/
theorem c6_proximity_boundary (playerRealX playerRealY targetX targetY distance : ℚ) :
    ((playerRealX - targetX) * (playerRealX - targetX)
        + (playerRealY - targetY) * (playerRealY - targetY) = distance * distance →
      isPlayerWithinDistance playerRealX playerRealY targetX targetY distance = true)
    ∧ (distance * distance < (playerRealX - targetX) * (playerRealX - targetX)
        + (playerRealY - targetY) * (playerRealY - targetY) →
      isPlayerWithinDistance playerRealX playerRealY targetX targetY distance = false) := by
  constructor
  · intro hsq
    unfold isPlayerWithinDistance
    rw [hsq]
    simp
  · intro hgt
    unfold isPlayerWithinDistance
    simp [not_le.mpr hgt]

theorem c6_witness :
    isPlayerWithinDistance 2 0 0 0 2 = true
    ∧ isPlayerWithinDistance 3 0 0 0 2 = false :=
  ⟨(c6_proximity_boundary 2 0 0 0 2).1 (by norm_num),
   (c6_proximity_boundary 3 0 0 0 2).2 (by norm_num)⟩

/-- C10: For every durationMs argument whose numeric conversion yields NaN, the show
command behaves exactly as if durationMs were 0 (the falsy NaN falls through the
`duration || textLength * 150` default, so the expiry is scheduled after
visibleLength times 150 milliseconds and everything else is identical). -/
theorem c10_nan_duration_as_zero (s : BubbleState) (target : TargetId)
    (textLength : ℕ) (isBlocking : Bool) :
    showBubble s target textLength .nan isBlocking
      = showBubble s target textLength (.num 0) isBlocking := by
  unfold showBubble scheduledDelay
  simp

/-- C5: The one-shot expiry of a show command is scheduled after durationMs
milliseconds when durationMs is a nonzero number and after visibleLength times 150
milliseconds when durationMs is 0; in particular a text with 10 visible characters
and durationMs 0 stays attached for exactly 1500 ms of model time, then detaches. -/
theorem c5_auto_duration (s : BubbleState) (target : TargetId) (textLength : ℕ)
    (d : ℚ) (hd : d ≠ 0) :
    scheduledDelay (.num d) textLength = d
    ∧ scheduledDelay (.num 0) textLength = ((textLength * 150 : ℕ) : ℚ)
    ∧ (showBubble s target 10 (.num 0) false).2.2 = 1500
    ∧ (∀ τ : ℚ, parentF
        (stateAt (showBubble s target 10 (.num 0) false).1
          (showBubble s target 10 (.num 0) false).2.1 1500 τ)
        (showBubble s target 10 (.num 0) false).2.1 = decide (τ < 1500)) := by
  refine ⟨?_, ?_, ?_, ?_⟩
  · unfold scheduledDelay
    dsimp only
    rw [if_neg hd]
  · unfold scheduledDelay
    dsimp only
    rw [if_pos rfl]
  · rw [showBubble_delay]
    unfold scheduledDelay
    dsimp only
    norm_num
  · intro τ
    rw [showBubble_idx]
    unfold stateAt
    by_cases hτ : τ < 1500
    · rw [if_pos hτ, parentF_showBubble, decide_eq_true hτ]
    · rw [if_neg hτ, parentF_remove_self]
      simp [hτ]

theorem c5_witness :
    scheduledDelay (.num 700) 10 = 700
    ∧ scheduledDelay (.num 0) 10 = ((10 * 150 : ℕ) : ℚ)
    ∧ (showBubble sampleState .pl 10 (.num 0) false).2.2 = 1500
    ∧ parentF (stateAt (showBubble sampleState .pl 10 (.num 0) false).1
        (showBubble sampleState .pl 10 (.num 0) false).2.1 1500 100)
        (showBubble sampleState .pl 10 (.num 0) false).2.1 = decide ((100 : ℚ) < 1500) := by
  obtain ⟨h1, h2, h3, h4⟩ := c5_auto_duration sampleState .pl 10 700 (by norm_num)
  exact ⟨h1, h2, h3, h4 100⟩

/-- C4: After a show call with blocking true, the tracked blocking bubble is the new
bubble and the interpreter wait predicate (updateWaitMode in the bubble wait mode) is
true immediately; in any state the predicate is exactly the attachment status of the
tracked bubble; and along the timed run of the scheduled expiry the predicate is true
strictly before the scheduled delay and false from the expiry on, so the interpreter
resumes on the next poll after the bubble detaches. -/
theorem c4_blocking_wait (s : BubbleState) (target : TargetId) (textLength : ℕ)
    (dur : JSNum) (base : Bool) :
    (showBubble s target textLength dur true).1.blockingBubble
        = some (showBubble s target textLength dur true).2.1
    ∧ updateWaitMode WAITMODE_BUBBLE (showBubble s target textLength dur true).1 base
        = .ok true
    ∧ (∀ s' : BubbleState, updateWaitMode WAITMODE_BUBBLE s' base
        = match s'.blockingBubble with
          | some j => .ok (parentF s' j)
          | none => .error .typeError)
    ∧ (∀ τ : ℚ, updateWaitMode WAITMODE_BUBBLE
        (stateAt (showBubble s target textLength dur true).1
          (showBubble s target textLength dur true).2.1
          (showBubble s target textLength dur true).2.2 τ) base
        = .ok (decide (τ < (showBubble s target textLength dur true).2.2))) := by
  have hwm : ∀ s' : BubbleState, updateWaitMode WAITMODE_BUBBLE s' base
      = match s'.blockingBubble with
        | some j => .ok (parentF s' j)
        | none => .error .typeError := by
    intro s'
    unfold updateWaitMode
    rw [if_pos rfl]
  refine ⟨rfl, ?_, hwm, ?_⟩
  · rw [hwm, blockingBubble_showBubble_true]
    dsimp only
    rw [parentF_showBubble]
  · intro τ
    rw [hwm, blockingBubble_stateAt, blockingBubble_showBubble_true]
    dsimp only
    rw [showBubble_idx]
    unfold stateAt
    by_cases hτ : τ < (showBubble s target textLength dur true).2.2
    · rw [if_pos hτ, parentF_showBubble, decide_eq_true hτ]
    · rw [if_neg hτ, parentF_remove_self]
      simp [hτ]

/-- C8: Idempotence of attach, detach and teardown: calling `addTo` when the bubble
already has a parent is a no-op leaving all state unchanged, calling `remove` when
the bubble has no parent is a no-op leaving all state unchanged, and running the
scene teardown again after a first teardown changes nothing. -/
theorem c8_idempotence (s : BubbleState) (i : ℕ) :
    (parentF s i = true → addTo s i = s)
    ∧ (parentF s i = false → remove s i = s)
    ∧ terminate (terminate s) = terminate s := by
  refine ⟨fun hp => addTo_noop hp, fun hp => remove_noop hp, ?_⟩
  rfl

theorem c8_witness :
    addTo (addTo sampleState 0) 0 = addTo sampleState 0
    ∧ remove sampleState 0 = sampleState := by
  constructor
  · exact (c8_idempotence (addTo sampleState 0) 0).1 (by decide)
  · exact (c8_idempotence sampleState 0).2.1 (by decide)

/-- C3 counterexample: the recognized Follower selector with index -1 resolves to a
null handle, and the show command then throws a TypeError (the `targetId` getter
dereferences the null target during `Window_Bubble` construction) instead of silently
constructing a bubble that never attaches: the claimed exception-free silent no-op is
false at this input. -/
theorem c3_counterexample :
    resolveTarget sampleEnv "Follower" (-1) = none
    ∧ showBubbleChecked sampleState (resolveTarget sampleEnv "Follower" (-1)) 5
        (.num 0) false = .error .typeError
    ∧ ∀ r, showBubbleChecked sampleState (resolveTarget sampleEnv "Follower" (-1)) 5
        (.num 0) false ≠ .ok r := by
  have h1 : resolveTarget sampleEnv "Follower" (-1) = none := by decide
  have h2 : showBubbleChecked sampleState (resolveTarget sampleEnv "Follower" (-1)) 5
      (.num 0) false = .error .typeError := by
    rw [h1]
    rfl
  refine ⟨h1, h2, ?_⟩
  intro r hc
  rw [h2] at hc
  exact Except.noConfusion hc

/-- C3 amended: for every show command whose target resolution yields an inert/null
handle, the `Window_Bubble` construction throws a TypeError from the `targetId`
getter, so the command fails with an exception; no bubble is registered, nothing
attaches, and nothing becomes visible under any proximity condition. -/
theorem c3_amended_throws (s : BubbleState) (textLength : ℕ) (dur : JSNum)
    (isBlocking : Bool) :
    showBubbleChecked s none textLength dur isBlocking = .error .typeError := rfl

/-- C9: The literal-event-id fallback of the show command fires whenever the selector
lookup yields a falsy handle, not only for unrecognized selector strings: whenever
the object-literal lookup returns the null handle — including for the recognized
Follower and Event selectors — the command resolves the target by indexing the event
table with the raw selector string itself. -/
theorem c9_fallback_on_falsy (env : GameEnv) (selector : String) (selectorId : ℤ) :
    (targetLookup env selector selectorId = none →
      resolveTarget env selector selectorId = getEventByKey env selector)
    ∧ (∀ id : ℤ, getFollowerById env id = none →
      resolveTarget env "Follower" id = getEventByKey env "Follower")
    ∧ (∀ id : ℤ, getEventById env id = none →
      resolveTarget env "Event" id = getEventByKey env "Event") := by
  refine ⟨?_, ?_, ?_⟩
  · intro h
    unfold resolveTarget
    rw [h]
  · intro id h
    unfold resolveTarget
    have hlook : targetLookup env "Follower" id = getFollowerById env id := rfl
    rw [hlook, h]
  · intro id h
    unfold resolveTarget
    have hlook : targetLookup env "Event" id = getEventById env id := rfl
    rw [hlook, h]

theorem c9_witness :
    resolveTarget sampleEnv "Follower" (-1) = getEventByKey sampleEnv "Follower"
    ∧ resolveTarget sampleEnv "Event" 99 = getEventByKey sampleEnv "Event" := by
  constructor
  · exact (c9_fallback_on_falsy sampleEnv "Follower" (-1)).2.1 (-1) (by decide)
  · exact (c9_fallback_on_falsy sampleEnv "Event" 99).2.2 99 (by decide)

/-- C1: For every TargetIdentity, after any completed coordinator tick (the
`Game_Player.updateAnimation` override) and after any single `addTo` or `remove`
call from a state satisfying the bookkeeping invariant, at most one registered
bubble sharing that TargetIdentity is drawn (parent set and visible), and it is the
most recently attached one (the top of that identity's stack); every other stacked
bubble is hidden (part of the preserved invariant `BubbleInv`). -/
theorem c1_single_visible_per_target (s : BubbleState) (h : BubbleInv s) :
    (∀ i, BubbleInv (addTo s i)
      ∧ AtMostOneDisplayed (addTo s i) ∧ VisibleIsTop (addTo s i))
    ∧ (∀ i, BubbleInv (remove s i)
      ∧ AtMostOneDisplayed (remove s i) ∧ VisibleIsTop (remove s i))
    ∧ (∀ prox, BubbleInv (updateAnimation prox s)
      ∧ AtMostOneDisplayed (updateAnimation prox s)
      ∧ VisibleIsTop (updateAnimation prox s)) := by
  refine ⟨fun i => ?_, fun i => ?_, fun prox => ?_⟩
  · have h2 := inv_addTo h i
    exact ⟨h2, atMostOne_of_inv h2, visibleIsTop_of_inv h2⟩
  · have h2 := inv_remove h i
    exact ⟨h2, atMostOne_of_inv h2, visibleIsTop_of_inv h2⟩
  · have h2 := inv_updateAnimation h prox
    exact ⟨h2, atMostOne_of_inv h2, visibleIsTop_of_inv h2⟩

theorem c1_witness :
    BubbleInv sampleState
    ∧ (BubbleInv (addTo sampleState 0)
      ∧ AtMostOneDisplayed (addTo sampleState 0) ∧ VisibleIsTop (addTo sampleState 0))
    ∧ (BubbleInv (updateAnimation (fun _ => true) sampleState)
      ∧ AtMostOneDisplayed (updateAnimation (fun _ => true) sampleState)
      ∧ VisibleIsTop (updateAnimation (fun _ => true) sampleState)) := by
  have h : BubbleInv sampleState := inv_of_relevant sampleState (by decide)
  exact ⟨h, (c1_single_visible_per_target sampleState h).1 0,
    (c1_single_visible_per_target sampleState h).2.2 (fun _ => true)⟩

/-- C2: LIFO visibility resumption: for two bubbles A and B with the same
TargetIdentity, neither attached yet, after `addTo A; addTo B` the bubble A is
hidden (its visible flag cleared) while B is drawn; after a subsequent `remove B`,
A is drawn again (parent still set and visible flag restored by the stack pop)
without any explicit re-attach of A, while B is detached. -/
theorem c2_lifo_resume (s : BubbleState) (A B : ℕ) (bA bB : Bubble)
    (h : BubbleInv s)
    (hA : s.bubbles[A]? = some bA) (hB : s.bubbles[B]? = some bB)
    (ht : bA.target = bB.target) (hAB : A ≠ B)
    (hpA : parentF s A = false) (hpB : parentF s B = false) :
    visibleF (addTo (addTo s A) B) A = false
    ∧ displayed (addTo (addTo s A) B) B = true
    ∧ displayed (remove (addTo (addTo s A) B) B) A = true
    ∧ parentF (remove (addTo (addTo s A) B) B) B = false := by
  have hniA := not_mem_stack_of_no_parent h hpA
  have hniB := not_mem_stack_of_no_parent h hpB
  have hinv1 : BubbleInv (addTo s A) := inv_addTo h A
  have hs1stack : stackOf (addTo s A) bA.target = stackOf s bA.target ++ [A] :=
    stackOf_addTo_self hpA hA (hniA _)
  have hs1pA : parentF (addTo s A) A = true := parentF_addTo_self hpA hA
  have hs1tB : targetF (addTo s A) B = some bB.target := by
    rw [targetF_addTo]
    exact targetF_eq_of hB
  have hs1pB : parentF (addTo s A) B = false := by
    rw [parentF_addTo_ne _ _ (Ne.symm hAB)]
    exact hpB
  obtain ⟨bB1, hb1B, hb1Bt⟩ : ∃ bb, (addTo s A).bubbles[B]? = some bb
      ∧ bb.target = bB.target := by
    cases hx : (addTo s A).bubbles[B]? with
    | none => rw [targetF, hx] at hs1tB; simp at hs1tB
    | some bb =>
      refine ⟨bb, rfl, ?_⟩
      rw [targetF_eq_of hx] at hs1tB
      exact Option.some.inj hs1tB
  have hniB1 := not_mem_stack_of_no_parent hinv1 hs1pB
  have hinv2 : BubbleInv (addTo (addTo s A) B) := inv_addTo hinv1 B
  have hs2stack : stackOf (addTo (addTo s A) B) bA.target
      = (stackOf s bA.target ++ [A]) ++ [B] := by
    have hx := stackOf_addTo_self hs1pB hb1B (hniB1 _)
    rw [hb1Bt, ← ht, hs1stack] at hx
    exact hx
  have hs2vA : visibleF (addTo (addTo s A) B) A = false := by
    have hx := visibleF_addTo_ne hs1pB hb1B (hniB1 _) hAB
    rw [hb1Bt, ← ht, hs1stack] at hx
    rw [hx, List.getLast?_concat, if_pos rfl]
  have hs2pB : parentF (addTo (addTo s A) B) B = true := parentF_addTo_self hs1pB hb1B
  have hs2vB : visibleF (addTo (addTo s A) B) B = true := visibleF_addTo_self hs1pB hb1B
  have hs2dB : displayed (addTo (addTo s A) B) B = true := by
    unfold displayed
    rw [hs2pB, hs2vB]
    rfl
  have hs2pA : parentF (addTo (addTo s A) B) A = true := by
    rw [parentF_addTo_ne _ _ hAB]
    exact hs1pA
  have hs2tB : targetF (addTo (addTo s A) B) B = some bB.target := by
    rw [targetF_addTo, targetF_addTo]
    exact targetF_eq_of hB
  obtain ⟨bB2, hb2B, hb2Bt⟩ : ∃ bb, (addTo (addTo s A) B).bubbles[B]? = some bb
      ∧ bb.target = bB.target := by
    cases hx : (addTo (addTo s A) B).bubbles[B]? with
    | none => rw [targetF, hx] at hs2tB; simp at hs2tB
    | some bb =>
      refine ⟨bb, rfl, ?_⟩
      rw [targetF_eq_of hx] at hs2tB
      exact Option.some.inj hs2tB
  have hwf2 : ∀ k ∈ stackOf (addTo (addTo s A) B) bB2.target,
      k < (addTo (addTo s A) B).bubbles.length := by
    intro k hk
    exact lt_length_of_targetF ((hinv2 bB2.target).2.1 k hk).1
  have hfil : (stackOf (addTo (addTo s A) B) bB2.target).filter (fun k => k != B)
      = stackOf s bA.target ++ [A] := by
    rw [hb2Bt, ← ht, hs2stack, List.filter_append, List.filter_append,
      filter_ne_eq_self_of_not_mem (hniB _)]
    have hone : [A].filter (fun k => k != B) = [A] :=
      filter_ne_eq_self_of_not_mem (by simpa using Ne.symm hAB)
    have htwo : [B].filter (fun k => k != B) = [] := by
      simp [List.filter_singleton]
    rw [hone, htwo, List.append_nil]
  have hs3vA : visibleF (remove (addTo (addTo s A) B) B) A = true := by
    have hx := visibleF_remove_ne hs2pB hb2B hwf2 A
    rw [hfil, List.getLast?_concat, if_pos rfl] at hx
    exact hx
  have hs3pA : parentF (remove (addTo (addTo s A) B) B) A = true := by
    rw [parentF_remove_ne _ _ hAB]
    exact hs2pA
  have hs3dA : displayed (remove (addTo (addTo s A) B) B) A = true := by
    unfold displayed
    rw [hs3pA, hs3vA]
    rfl
  exact ⟨hs2vA, hs2dB, hs3dA, parentF_remove_self _ _⟩

theorem c2_witness :
    visibleF (addTo (addTo sampleState 0) 1) 0 = false
    ∧ displayed (addTo (addTo sampleState 0) 1) 1 = true
    ∧ displayed (remove (addTo (addTo sampleState 0) 1) 1) 0 = true
    ∧ parentF (remove (addTo (addTo sampleState 0) 1) 1) 1 = false :=
  c2_lifo_resume sampleState 0 1 ⟨.ev 1, false, true⟩ ⟨.ev 1, false, true⟩
    (inv_of_relevant sampleState (by decide)) (by decide) (by decide) rfl
    (by decide) (by decide) (by decide)
